import Mathlib

/-!
Verification of the document-cataloging core (document_cataloger.py).

The Python source is shallowly embedded: pure helper functions become Lean
functions on `String` and `List Char`; the pieces the spec designates as
external collaborators (text extraction, the HTTP inference oracle, the JSON
parser of the standard library, CSV persistence, wall-clock dates) are
threaded through an explicit `Env` record or stored as fields of the
filesystem model, exactly as the spec prescribes for collaborators.
Paths are modelled relative to the knowledge-base root (the root prefix the
Python code prepends is opaque to all decisions modelled here).
Python string operations are modelled for ASCII text, which is the alphabet
every claim and witness uses.
-/

set_option autoImplicit false

namespace Cataloger

/-! ## Python string primitives -/

/-- Left brace character, written via its code point. -/
def lbrace : Char := Char.ofNat 123

/-- Right brace character, written via its code point. -/
def rbrace : Char := Char.ofNat 125

/-- Does the character list start with the given needle (Python str.startswith on lists). -/
def charsStartWith : List Char → List Char → Bool
  | _, [] => true
  | [], _ :: _ => false
  | h :: hs, n :: ns => h == n && charsStartWith hs ns

/-- Contiguous containment of a needle in a haystack, Python `needle in hay`. -/
def charsContain (needle : List Char) : List Char → Bool
  | [] => charsStartWith [] needle
  | h :: hs => charsStartWith (h :: hs) needle || charsContain needle hs

/-- Python substring test `needle in hay` on strings. -/
def strIn (needle hay : String) : Bool :=
  charsContain needle.toList hay.toList

/-- Python str.lower restricted to ASCII. -/
def pyLower (s : String) : String :=
  String.mk (s.toList.map Char.toLower)

/-- Python str.upper restricted to ASCII. -/
def pyUpper (s : String) : String :=
  String.mk (s.toList.map Char.toUpper)

/-- Python str.strip with no argument: leading and trailing whitespace removed. -/
def pyStrip (s : String) : String :=
  String.mk (((s.toList.dropWhile Char.isWhitespace).reverse.dropWhile
    Char.isWhitespace).reverse)

/-- Index of the first occurrence of a character, Python str.find. -/
def idxOfChar (c : Char) : List Char → Option Nat
  | [] => none
  | x :: xs => if x == c then some 0 else (idxOfChar c xs).map (· + 1)

/-- Index of the last occurrence of a character, Python str.rfind. -/
def lastIdxOfChar (c : Char) (l : List Char) : Option Nat :=
  (idxOfChar c l.reverse).map (fun k => l.length - 1 - k)

/-- Word character of the regex class backslash-w restricted to ASCII. -/
def isWordChar (c : Char) : Bool := c.isAlphanum || c == '_'

/-- Is the optional previous character a word character (start of string counts as non-word). -/
def isWordOpt : Option Char → Bool
  | none => false
  | some c => isWordChar c

/-- Is the head of the remaining text a word character (end of string counts as non-word). -/
def isWordHead : List Char → Bool
  | [] => false
  | c :: _ => isWordChar c

/-- Python str.title restricted to ASCII: a letter is uppercased when the previous
character is not a letter, lowercased otherwise; non-letters pass through. -/
def pyTitleAux : Bool → List Char → List Char
  | _, [] => []
  | prevCased, c :: rest =>
    if c.isAlpha then
      (if prevCased then c.toLower else c.toUpper) :: pyTitleAux true rest
    else
      c :: pyTitleAux false rest

/-- Python str.title on a string (ASCII). -/
def pyTitle (s : String) : String :=
  String.mk (pyTitleAux false s.toList)

/-- Leftmost match of the regex backslash-b (19|20) digit digit backslash-b,
as used by re.search in get_fallback_metadata. `prev` is the character just
before the current scan position in the original string. -/
def yearSearch (prev : Option Char) : List Char → Option String
  | [] => none
  | c1 :: rest1 =>
    match rest1 with
    | c2 :: c3 :: c4 :: rest =>
      if ((c1 == '1' && c2 == '9') || (c1 == '2' && c2 == '0'))
          && c3.isDigit && c4.isDigit
          && !(isWordOpt prev) && !(isWordHead rest) then
        some (String.mk [c1, c2, c3, c4])
      else
        yearSearch (some c1) rest1
    | _ => yearSearch (some c1) rest1

/-- re.sub of backslash-b backslash-d{4} backslash-b with the empty string:
leftmost non-overlapping 4-digit runs flanked by word boundaries are deleted,
with boundary context taken from the original string. -/
def subYear4 (prev : Option Char) : List Char → List Char
  | [] => []
  | c1 :: c2 :: c3 :: c4 :: rest =>
    if c1.isDigit && c2.isDigit && c3.isDigit && c4.isDigit
        && !(isWordOpt prev) && !(isWordHead rest) then
      subYear4 (some c4) rest
    else
      c1 :: subYear4 (some c1) (c2 :: c3 :: c4 :: rest)
  | c1 :: rest1 => c1 :: subYear4 (some c1) rest1

/-- First match of re.findall with pattern backslash-d{4} (no word boundaries):
the leftmost run of four consecutive digits. -/
def firstDigit4 : List Char → Option String
  | c1 :: c2 :: c3 :: c4 :: rest =>
    if c1.isDigit && c2.isDigit && c3.isDigit && c4.isDigit then
      some (String.mk [c1, c2, c3, c4])
    else
      firstDigit4 (c2 :: c3 :: c4 :: rest)
  | _ => none

/-! ## Python dictionaries as association lists -/

/-- Python dict lookup: first binding of the key (dict keys are unique). -/
def pyDictGet {α : Type} : List (String × α) → String → Option α
  | [], _ => none
  | (k, v) :: rest, key => if k == key then some v else pyDictGet rest key

/-- Python dict assignment: replace the value at the first binding of the key,
keeping its position, or append a fresh binding at the end. -/
def pyDictSet {α : Type} : List (String × α) → String → α → List (String × α)
  | [], key, v => [(key, v)]
  | (k, w) :: rest, key, v =>
    if k == key then (k, v) :: rest else (k, w) :: pyDictSet rest key v

/-- Lookup in a fixed string-to-string table, Python dict .get with a default. -/
def lookupStr (m : List (String × String)) (k : String) : Option String :=
  (m.find? (fun kv => kv.1 == k)).map (fun kv => kv.2)

/-! ## JSON values as returned by the standard-library parser

Values produced by json.loads. Numbers are modelled as integers, which covers
every behaviour the claims exercise; a top-level successful parse of a
brace-delimited string is always an object, so the parser collaborator returns
the object binding list directly (or an error, the JSONDecodeError case). -/

inductive PyJson where
  | str (s : String)
  | num (n : Int)
  | bool (b : Bool)
  | null
  | arr (elems : List PyJson)
  | obj (fields : List (String × PyJson))
deriving Repr, BEq

/-- Python truthiness of a parsed JSON value. -/
def pyTruthy : PyJson → Bool
  | .str s => !(s == "")
  | .num n => !(n == 0)
  | .bool b => b
  | .null => false
  | .arr elems => !elems.isEmpty
  | .obj fields => !fields.isEmpty

/-- Python str() applied to a parsed JSON value. After validation the
resolver only applies this to string values; the container cases are
unreachable there and carry nominal renderings. -/
def pyStrOf : PyJson → String
  | .str s => s
  | .num n => toString n
  | .bool b => if b then "True" else "False"
  | .null => "None"
  | .arr _ => "[...]"
  | .obj _ => "dict"

/-! ## Data model -/

/-- The nine descriptive metadata fields a resolver produces
(analyze_document_with_llm and get_fallback_metadata both return this shape). -/
structure Metadata where
  title : String
  short_title : String
  publisher : String
  year : String
  language : String
  country_scope : String
  summary : String
  indicators_covered : String
  evidence_level : String
deriving Repr, DecidableEq

/-- One catalog row, with the 29 columns built in process_document
(lines 416-446 of document_cataloger.py). -/
structure CatalogEntry where
  doc_id : String
  title : String
  short_title : String
  sector : String
  doc_type : String
  doc_source : String
  publisher : String
  year : String
  version : String
  language : String
  country_scope : String
  license : String
  license_url : String
  redistributable : String
  url : String
  file_name : String
  file_path : String
  checksum_sha256 : String
  evidence_level : String
  last_reviewed : String
  next_review_due : String
  supersedes_doc_id : String
  notes : String
  indicators_covered : String
  page_anchors : String
  embedding_status : String
  embedding_model : String
  chunk_count : String
  vector_index_id : String
deriving Repr, DecidableEq

/-- An on-disk document as the core sees it. `parts` are the path components
relative to the knowledge-base root; `checksum` is the content fingerprint the
Checksum Service computes over the full byte stream (SHA-256 hex in the code,
opaque here); `text` is what the extract_text collaborator returns for the
document (empty string means unreadable or unsupported content). -/
structure FsFile where
  parts : List String
  checksum : String
  text : String
deriving Repr, DecidableEq

/-- Final path component, Python Path.name. -/
def FsFile.name (f : FsFile) : String := f.parts.getLastD ""

/-- Split a final path component into stem and suffix following pathlib:
the suffix starts at the last dot provided that dot is neither the first nor
the last character of the name. -/
def nameSplit (nm : String) : String × String :=
  match lastIdxOfChar '.' nm.toList with
  | some i => if 0 < i && i < nm.length - 1 then (nm.take i, nm.drop i) else (nm, "")
  | none => (nm, "")

/-- Python Path.stem of the document. -/
def FsFile.stem (f : FsFile) : String := (nameSplit (FsFile.name f)).1

/-- Python Path.suffix of the document, including the leading dot. -/
def FsFile.suffix (f : FsFile) : String := (nameSplit (FsFile.name f)).2

/-- str(file_path) relative to the knowledge-base root. -/
def FsFile.pathStr (f : FsFile) : String := String.intercalate "/" f.parts

/-- Relative path used as the catalog key, str(file_path.relative_to(kb_path)). -/
def FsFile.relPath (f : FsFile) : String := FsFile.pathStr f

/-- External collaborators threaded through a run: the JSON parser
(json.loads on the brace-delimited slice), the inference oracle
(query_ollama as a function of the varying part of the prompt, namely the
first 2000 characters of the extracted text; none models exhausted retries,
the empty string a blank response), and the two formatted dates taken from
the clock when an entry is built. -/
structure Env where
  json_loads : String → Except String (List (String × PyJson))
  oracle : String → Option String
  now_last : String
  now_next : String

/-! ## Fallback Metadata Resolver (get_fallback_metadata, lines 240-290) -/

/-- The fixed publisher lexicon, in the iteration order of the Python dict. -/
def publishers : List (String × String) :=
  [("sphere", "Sphere Project"), ("who", "WHO"), ("unicef", "UNICEF"),
   ("unhcr", "UNHCR"), ("iasc", "IASC"), ("chs", "CHS Alliance"), ("imc", "IMC")]

/-- Title cleaning of the fallback resolver: separators to spaces, 4-digit
word-bounded runs removed, surrounding whitespace stripped, then title-cased. -/
def fallbackTitle (stem : String) : String :=
  let spaced := stem.toList.map (fun c => if c == '_' || c == '-' then ' ' else c)
  pyTitle (pyStrip (String.mk (subYear4 none spaced)))

/-- get_fallback_metadata as a function of the filename stem and of
str(file_path).lower(); a pure function of its two arguments. -/
def get_fallback_metadata (stem pathStrLower : String) : Metadata :=
  let filenameLower := pyLower stem
  let year := (yearSearch none stem.toList).getD "Unknown"
  let language :=
    if strIn "fr" filenameLower || strIn "french" filenameLower
        || strIn "français" filenameLower then "FR"
    else if strIn "es" filenameLower || strIn "spanish" filenameLower
        || strIn "español" filenameLower then "ES"
    else if strIn "ar" filenameLower || strIn "arabic" filenameLower then "AR"
    else "EN"
  let publisher :=
    ((publishers.find? (fun kv =>
        strIn kv.1 filenameLower || strIn kv.1 pathStrLower)).map
      (fun kv => kv.2)).getD "Unknown"
  let title := fallbackTitle stem
  { title := title
    short_title := if title.length ≤ 50 then title.take 50 else title.take 47 ++ "..."
    publisher := publisher
    year := year
    language := language
    country_scope := "Global"
    summary := "Document requires manual review for detailed cataloging"
    indicators_covered := "To be determined through manual review"
    evidence_level := "unknown" }

/-! ## Classifier (determine_sector, determine_doc_type, lines 292-338) -/

/-- Directory-name-to-sector table of the constructor. -/
def sector_mapping : List (String × String) :=
  [("01_Cross_Cutting_Standards", "Cross-Cutting"),
   ("02_Sector_Standards_Policies", "Mixed"),
   ("03_Cross_Cutting_Assessment_Guidelines_Tools", "Cross-Cutting"),
   ("04_Sector_Assessment_Guidelines_Tools", "Mixed"),
   ("05_Gold_Standard_Examples", "Mixed"),
   ("Health", "Health"), ("MHPSS", "MHPSS"), ("Nutrition", "Nutrition"),
   ("WASH", "WASH"), ("GBV", "GBV"), ("Child_Protection", "Child Protection"),
   ("FSL", "FSL")]

/-- Keyword inference pass over one path segment, the second loop of
determine_sector. -/
def sectorKeyword (p : String) : Option String :=
  let pl := pyLower p
  if strIn "health" pl && !(strIn "mhpss" pl) then some "Health"
  else if strIn "mhpss" pl || strIn "mental" pl then some "MHPSS"
  else if strIn "nutrition" pl then some "Nutrition"
  else if strIn "wash" pl then some "WASH"
  else if strIn "gbv" pl || strIn "gender" pl then some "GBV"
  else if strIn "protection" pl then some "Child Protection"
  else if strIn "fsl" pl || strIn "food" pl then some "FSL"
  else none

/-- First some in a list of options, modelling a first-match loop. -/
def firstSome : List (Option String) → Option String
  | [] => none
  | some s :: _ => some s
  | none :: rest => firstSome rest

/-- determine_sector on the path components: exact table match over all
segments first, then the keyword pass, then the Cross-Cutting default. -/
def determine_sector (parts : List String) : String :=
  match firstSome (parts.map (fun p => lookupStr sector_mapping p)) with
  | some s => s
  | none => (firstSome (parts.map sectorKeyword)).getD "Cross-Cutting"

/-- determine_doc_type on str(file_path) and the resolved title. -/
def determine_doc_type (pathStr title : String) : String :=
  let ps := pyLower pathStr
  let tl := pyLower title
  if strIn "standard" ps || strIn "standard" tl then "standard"
  else if strIn "assessment" ps || strIn "assessment" tl then "assessment_tool"
  else if strIn "guideline" ps || strIn "guide" tl then "guideline"
  else if strIn "tool" ps || strIn "tool" tl then "tool"
  else if strIn "policy" ps || strIn "policy" tl then "policy"
  else if strIn "example" ps || strIn "example" tl then "example"
  else "resource"

/-! ## Identifier Generator (generate_doc_id, lines 340-365) -/

/-- generate_doc_id: abbreviation tables, publisher cleaned by uppercasing,
stripping non-alphanumerics and truncating to 8 characters, first 4-digit run
of the year field. The title argument is accepted and unused, as in the code. -/
def generate_doc_id (sector doc_type publisher title year version : String) : String :=
  let sector_abbrev :=
    (lookupStr
      [("Health", "HLTH"), ("MHPSS", "MHPSS"), ("Nutrition", "NUT"),
       ("WASH", "WASH"), ("GBV", "GBV"), ("Child Protection", "CP"),
       ("FSL", "FSL"), ("Cross-Cutting", "CC"), ("Mixed", "MX")] sector).getD "GEN"
  let type_abbrev :=
    (lookupStr
      [("standard", "STD"), ("assessment_tool", "ASMT"), ("guideline", "GUID"),
       ("tool", "TOOL"), ("policy", "POL"), ("example", "EX"),
       ("resource", "RES")] doc_type).getD "DOC"
  let pub_clean0 := String.mk (((pyUpper publisher).toList.filter Char.isAlphanum).take 8)
  let pub_clean := if pub_clean0 == "" then "UNK" else pub_clean0
  let year_str := (firstDigit4 year.toList).getD "UNKN"
  let _ := title
  sector_abbrev ++ "_" ++ type_abbrev ++ "_" ++ pub_clean ++ "_" ++ year_str ++ "_" ++ version

/-! ## Primary Metadata Resolver (analyze_document_with_llm, lines 152-238) -/

/-- Uncaught Python exceptions the embedding tracks. The except clause of the
resolver catches json.JSONDecodeError and ValueError only; an AttributeError
raised inside the try block propagates to the caller. -/
inductive PyErr where
  | attributeError
deriving Repr, DecidableEq

/-- The nine required field names, in the order the validation loop visits them. -/
def required_fields : List String :=
  ["title", "short_title", "publisher", "year", "language",
   "country_scope", "summary", "indicators_covered", "evidence_level"]

/-- Field-specific defaults, defaults.get(field, "Unknown"). -/
def field_default (f : String) : String :=
  if f == "evidence_level" then "normative"
  else if f == "country_scope" then "Global"
  else if f == "summary" then "Humanitarian standard or framework document"
  else if f == "indicators_covered" then "Quality and accountability standards"
  else "Unknown"

/-- One iteration of the validation loop: a missing, falsy or blank value is
replaced by its default; a truthy value is kept after a .strip() call that
raises AttributeError when the value is not a string. -/
def validateOne (m : List (String × PyJson)) (f : String) :
    Except PyErr (List (String × PyJson)) :=
  match pyDictGet m f with
  | none => .ok (pyDictSet m f (.str (field_default f)))
  | some v =>
    if pyTruthy v then
      match v with
      | .str s =>
        if pyStrip s == "" then .ok (pyDictSet m f (.str (field_default f)))
        else .ok m
      | _ => .error .attributeError
    else
      .ok (pyDictSet m f (.str (field_default f)))

/-- The validation loop over the required fields, one validateOne step per
field in order, stopping at the first raised error. -/
def validateFields (m : List (String × PyJson)) :
    List String → Except PyErr (List (String × PyJson))
  | [] => .ok m
  | f :: rest =>
    match validateOne m f with
    | .error e => .error e
    | .ok m1 => validateFields m1 rest

/-- The slice between the first left brace and the last right brace of the
response, json_start/json_end handling; none when the slice is empty or a
brace is missing, which sends the resolver to the fallback path. -/
def braceSlice (s : String) : Option String :=
  let l := s.toList
  match idxOfChar lbrace l, lastIdxOfChar rbrace l with
  | some i, some j => if j + 1 > i then some (String.mk ((l.drop i).take (j + 1 - i))) else none
  | _, _ => none

/-- Projection of the validated dictionary to the returned metadata:
year is passed through str() and short_title truncated past 50 characters. -/
def finishMetadata (m : List (String × PyJson)) : Metadata :=
  let getS (f : String) : String := pyStrOf ((pyDictGet m f).getD .null)
  let st := getS "short_title"
  { title := getS "title"
    short_title := if st.length > 50 then st.take 47 ++ "..." else st
    publisher := getS "publisher"
    year := pyStrOf ((pyDictGet m "year").getD .null)
    language := getS "language"
    country_scope := getS "country_scope"
    summary := getS "summary"
    indicators_covered := getS "indicators_covered"
    evidence_level := getS "evidence_level" }

/-- Parsing and validation of the brace-delimited slice: a JSONDecodeError
is caught and degrades to fallback metadata, a validation error (the
AttributeError) propagates, and a validated object is projected to the
returned metadata. -/
def parseStage (json_loads : String → Except String (List (String × PyJson)))
    (json_str stem pathStrLower : String) : Except PyErr Metadata :=
  match json_loads json_str with
  | .error _ => .ok (get_fallback_metadata stem pathStrLower)
  | .ok fields =>
    match validateFields fields required_fields with
    | .error e => .error e
    | .ok m => .ok (finishMetadata m)

/-- analyze_document_with_llm after the oracle call, as a function of the
oracle response (none models exhausted retries, the empty string a blank
response, both degrading to fallback), the JSON parser collaborator, and the
two fallback inputs derived from the document path. -/
def analyze_document_with_llm
    (json_loads : String → Except String (List (String × PyJson)))
    (response? : Option String) (stem pathStrLower : String) :
    Except PyErr Metadata :=
  match response? with
  | none => .ok (get_fallback_metadata stem pathStrLower)
  | some response0 =>
    if response0 == "" then .ok (get_fallback_metadata stem pathStrLower)
    else
      match braceSlice (pyStrip response0) with
      | none => .ok (get_fallback_metadata stem pathStrLower)
      | some json_str => parseStage json_loads json_str stem pathStrLower

/-! ## Catalog Synchronizer (lines 372-555) -/

/-- load_existing_catalog: rows of the persisted table inserted into a dict
keyed by file_path, in row order (the load_table collaborator hands over the
rows; a re-inserted key keeps its position and takes the later value). -/
def load_existing_catalog (rows : List CatalogEntry) : List (String × CatalogEntry) :=
  rows.foldl (fun d r => pyDictSet d r.file_path r) []

/-- A document is found by the glob patterns when its suffix is .pdf or .docx
and it is kept when its name is not hidden. -/
def eligibleFile (f : FsFile) : Bool :=
  (FsFile.suffix f == ".pdf" || FsFile.suffix f == ".docx")
    && !(charsStartWith (FsFile.name f).toList ['.'])

/-- Relative paths of the eligible documents currently on disk. -/
def currentPathList (fs : List FsFile) : List String :=
  (fs.filter eligibleFile).map FsFile.relPath

/-- scan_for_file_changes: new files are eligible documents whose path is not
a catalog key, deleted paths are catalog keys with no eligible document. -/
def scan_for_file_changes (fs : List FsFile) (keys : List String) :
    List FsFile × List String :=
  ((fs.filter eligibleFile).filter (fun f => !keys.contains (FsFile.relPath f)),
   keys.filter (fun p => !(currentPathList fs).contains p))

/-- clean_deleted_entries: every catalog entry whose path is not deleted,
in catalog order. -/
def clean_deleted_entries (existing : List (String × CatalogEntry))
    (deleted : List String) : List CatalogEntry :=
  (existing.filter (fun kv => !deleted.contains kv.1)).map (fun kv => kv.2)

/-- The catalog entry construction of process_document (lines 403-448):
classification, identifier generation and the 29-column record. -/
def buildEntry (env : Env) (f : FsFile) (md : Metadata) : CatalogEntry :=
  let sector := determine_sector f.parts
  let doc_type := determine_doc_type (FsFile.pathStr f) md.title
  let doc_id := generate_doc_id sector doc_type md.publisher md.title md.year "v1"
  { doc_id := doc_id
    title := md.title
    short_title := md.short_title
    sector := sector
    doc_type := doc_type
    doc_source := if strIn "External" (FsFile.pathStr f) then "external" else "internal"
    publisher := md.publisher
    year := md.year
    version := "v1"
    language := md.language
    country_scope := md.country_scope
    license := ""
    license_url := ""
    redistributable := ""
    url := ""
    file_name := FsFile.name f
    file_path := FsFile.relPath f
    checksum_sha256 := f.checksum
    evidence_level := md.evidence_level
    last_reviewed := env.now_last
    next_review_due := env.now_next
    supersedes_doc_id := ""
    notes := md.summary
    indicators_covered := md.indicators_covered
    page_anchors := ""
    embedding_status := "pending"
    embedding_model := ""
    chunk_count := ""
    vector_index_id := "" }

/-- Processing of the extracted text: an empty extraction yields no entry
(the document is dropped), otherwise the metadata is resolved and the entry
built (lines 398-448). -/
def processText (env : Env) (f : FsFile) (text : String) :
    Except PyErr (Option CatalogEntry) :=
  if text == "" then .ok none
  else
    match analyze_document_with_llm env.json_loads (env.oracle (text.take 2000))
        (FsFile.stem f) (pyLower (FsFile.pathStr f)) with
    | .error e => .error e
    | .ok md => .ok (some (buildEntry env f md))

/-- The processing part of process_document past the skip check: text
extraction by lowercased suffix (an unsupported type yields no entry),
then processText (lines 387-448). -/
def process_document_body (env : Env) (f : FsFile) :
    Except PyErr (Option CatalogEntry) :=
  if pyLower (FsFile.suffix f) == ".pdf" then processText env f f.text
  else if pyLower (FsFile.suffix f) == ".docx" then processText env f f.text
  else .ok none

/-- process_document: unless reprocessing is forced, a path present in the
prior catalog with a matching checksum returns the prior entry unchanged;
otherwise the document runs through the full pipeline. -/
def process_document (env : Env) (existing : List (String × CatalogEntry))
    (f : FsFile) (force_reprocess : Bool) : Except PyErr (Option CatalogEntry) :=
  match (if force_reprocess then none else pyDictGet existing (FsFile.relPath f)) with
  | some existing_entry =>
    if existing_entry.checksum_sha256 == f.checksum then .ok (some existing_entry)
    else process_document_body env f
  | none => process_document_body env f

/-- The per-file loop of catalog_all_documents: a raised exception is caught,
recorded and skipped, a none result is skipped, an entry is appended. The
second component lists the paths whose processing raised. -/
def processFiles (env : Env) (existing : List (String × CatalogEntry))
    (force : Bool) : List FsFile → List CatalogEntry × List String
  | [] => ([], [])
  | f :: rest =>
    let tail := processFiles env existing force rest
    match process_document env existing f force with
    | .error _ => (tail.1, FsFile.relPath f :: tail.2)
    | .ok none => tail
    | .ok (some e) => (e :: tail.1, tail.2)

/-- catalog_all_documents with rename_files false: incremental mode starts
from the prior rows minus deleted paths and processes only new files without
forcing; full-scan mode starts from an empty table and forces reprocessing of
every eligible document. Returns the output table and the error log. -/
def catalog_all_documents (env : Env) (fs : List FsFile)
    (rows : List CatalogEntry) (incremental : Bool) :
    List CatalogEntry × List String :=
  let existing := load_existing_catalog rows
  if incremental then
    let scanned := scan_for_file_changes fs (existing.map (fun kv => kv.1))
    let catalog_entries := clean_deleted_entries existing scanned.2
    if scanned.1.isEmpty && scanned.2.isEmpty then (catalog_entries, [])
    else
      let processed := processFiles env existing false scanned.1
      (catalog_entries ++ processed.1, processed.2)
  else
    let processed := processFiles env existing true (fs.filter eligibleFile)
    processed

/-- The fixed, ordered column schema of save_catalog. -/
def fieldnames : List String :=
  ["doc_id", "title", "short_title", "sector", "doc_type", "doc_source",
   "publisher", "year", "version", "language", "country_scope",
   "license", "license_url", "redistributable", "url", "file_name",
   "file_path", "checksum_sha256", "evidence_level", "last_reviewed",
   "next_review_due", "supersedes_doc_id", "notes", "indicators_covered",
   "page_anchors", "embedding_status", "embedding_model", "chunk_count",
   "vector_index_id"]

/-- One written row, in schema order. -/
def entryRow (e : CatalogEntry) : List String :=
  [e.doc_id, e.title, e.short_title, e.sector, e.doc_type, e.doc_source,
   e.publisher, e.year, e.version, e.language, e.country_scope,
   e.license, e.license_url, e.redistributable, e.url, e.file_name,
   e.file_path, e.checksum_sha256, e.evidence_level, e.last_reviewed,
   e.next_review_due, e.supersedes_doc_id, e.notes, e.indicators_covered,
   e.page_anchors, e.embedding_status, e.embedding_model, e.chunk_count,
   e.vector_index_id]

/-- save_catalog at the table level: the header row followed by one row per
entry, in order (the CSV byte encoding is the save_table collaborator). -/
def save_catalog (entries : List CatalogEntry) : List (List String) :=
  fieldnames :: entries.map entryRow

/-! ## Concrete inputs used by witnesses and counterexamples -/

/-- An environment whose oracle is down (every call degrades to fallback)
and whose parser rejects everything it is shown. -/
def env0 : Env :=
  { json_loads := fun _ => .error "invalid json"
    oracle := fun _ => none
    now_last := "01/01/25"
    now_next := "01/01/26" }

/-- A prior catalog row for the document at relative path a.pdf with
fingerprint c1. -/
def rowA : CatalogEntry :=
  { doc_id := "D1", title := "Title A", short_title := "A", sector := "WASH",
    doc_type := "standard", doc_source := "internal", publisher := "WHO",
    year := "2020", version := "v1", language := "EN", country_scope := "Global",
    license := "CC-BY", license_url := "", redistributable := "yes", url := "",
    file_name := "a.pdf", file_path := "a.pdf", checksum_sha256 := "c1",
    evidence_level := "normative", last_reviewed := "05/05/24",
    next_review_due := "05/05/25", supersedes_doc_id := "", notes := "a note",
    indicators_covered := "ind", page_anchors := "", embedding_status := "pending",
    embedding_model := "", chunk_count := "", vector_index_id := "" }

/-- The document a.pdf exactly as cataloged: same path, same fingerprint. -/
def fsA : FsFile := { parts := ["a.pdf"], checksum := "c1", text := "hello" }

/-- The document a.pdf after its bytes were modified in place: same path,
different fingerprint and different extracted text. -/
def fsAchanged : FsFile := { parts := ["a.pdf"], checksum := "c2", text := "bye" }

/-- The document a.pdf still on disk but unreadable: text extraction
returns the empty string. -/
def fsEmptyText : FsFile := { parts := ["a.pdf"], checksum := "c2", text := "" }

/-- A readable document whose filename stem is a bare year. -/
def file2023 : FsFile := { parts := ["2023.pdf"], checksum := "k", text := "x" }

/-- An oracle response whose parsed JSON carries a number, not a string,
in the year field. -/
def respBad : String := "\x7b\"year\": 2011\x7d"

/-- A parser collaborator behaving as json.loads does on respBad. -/
def jl3 : String → Except String (List (String × PyJson)) :=
  fun s => if s == respBad then .ok [("year", .num 2011)] else .error "invalid json"

/-- A parser collaborator returning a well-formed nine-field object with one
blank field, exercising the default-filling path. -/
def jlGood : String → Except String (List (String × PyJson)) :=
  fun _ => .ok
    [("title", .str "My Standard Doc"), ("short_title", .str "MSD"),
     ("publisher", .str "WHO"), ("year", .str "2019"), ("language", .str "EN"),
     ("country_scope", .str ""), ("summary", .str "s"),
     ("indicators_covered", .str "i"), ("evidence_level", .str "normative")]

/-- An environment whose oracle answers and whose parser is jlGood. -/
def envG : Env :=
  { json_loads := jlGood
    oracle := fun _ => some "\x7bnonempty\x7d"
    now_last := "01/01/25"
    now_next := "01/01/26" }

/-- The entry process_document_body builds for file2023 under env0:
its title and short_title are empty. -/
def entry2023 : CatalogEntry :=
  { doc_id := "CC_RES_UNKNOWN_2023_v1", title := "", short_title := "",
    sector := "Cross-Cutting", doc_type := "resource", doc_source := "internal",
    publisher := "Unknown", year := "2023", version := "v1", language := "EN",
    country_scope := "Global", license := "", license_url := "",
    redistributable := "", url := "", file_name := "2023.pdf",
    file_path := "2023.pdf", checksum_sha256 := "k", evidence_level := "unknown",
    last_reviewed := "01/01/25", next_review_due := "01/01/26",
    supersedes_doc_id := "", notes := "Document requires manual review for detailed cataloging",
    indicators_covered := "To be determined through manual review",
    page_anchors := "", embedding_status := "pending", embedding_model := "",
    chunk_count := "", vector_index_id := "" }

/-- The entry process_document_body builds for fsA under envG. -/
def entryGood : CatalogEntry :=
  { doc_id := "CC_STD_WHO_2019_v1", title := "My Standard Doc",
    short_title := "MSD", sector := "Cross-Cutting", doc_type := "standard",
    doc_source := "internal", publisher := "WHO", year := "2019",
    version := "v1", language := "EN", country_scope := "Global",
    license := "", license_url := "", redistributable := "", url := "",
    file_name := "a.pdf", file_path := "a.pdf", checksum_sha256 := "c1",
    evidence_level := "normative", last_reviewed := "01/01/25",
    next_review_due := "01/01/26", supersedes_doc_id := "", notes := "s",
    indicators_covered := "i", page_anchors := "", embedding_status := "pending",
    embedding_model := "", chunk_count := "", vector_index_id := "" }

/-! ## Theorems -/

/-- C6: generate_doc_id on sector WASH, type standard, publisher
Sphere Project!!, year circa 2011 and default version v1 yields
WASH_STD_SPHEREPR_2011_v1 for every title: non-alphanumerics are stripped
from the uppercased publisher, the result truncated to 8 characters, and the
first 4-digit run extracted from the year field. -/
theorem C6_identifier_format (title : String) :
    generate_doc_id "WASH" "standard" "Sphere Project!!" title "circa 2011" "v1"
      = "WASH_STD_SPHEREPR_2011_v1" := rfl

/-- C8: the fallback metadata resolver is a pure, deterministic function of
the filename stem and lowercased path string: evaluating it twice on the
same input yields identical metadata. -/
theorem C8_fallback_deterministic (stem pathStrLower : String) :
    get_fallback_metadata stem pathStrLower = get_fallback_metadata stem pathStrLower := rfl

/-- C9: fallback language detection is substring containment tried in the
fixed order FR, ES, AR with EN as default: any stem whose lowercasing
contains the two-letter sequence fr (framework included) yields FR; when the
whole FR keyword test fails, an ES keyword hit yields ES; then an AR keyword
hit yields AR; otherwise EN. -/
theorem C9_language_substring (stem pathStrLower : String) :
    (strIn "fr" (pyLower stem) = true →
      (get_fallback_metadata stem pathStrLower).language = "FR")
    ∧ ((strIn "fr" (pyLower stem) || strIn "french" (pyLower stem)
          || strIn "français" (pyLower stem)) = false →
        (strIn "es" (pyLower stem) || strIn "spanish" (pyLower stem)
          || strIn "español" (pyLower stem)) = true →
        (get_fallback_metadata stem pathStrLower).language = "ES")
    ∧ ((strIn "fr" (pyLower stem) || strIn "french" (pyLower stem)
          || strIn "français" (pyLower stem)) = false →
        (strIn "es" (pyLower stem) || strIn "spanish" (pyLower stem)
          || strIn "español" (pyLower stem)) = false →
        (strIn "ar" (pyLower stem) || strIn "arabic" (pyLower stem)) = true →
        (get_fallback_metadata stem pathStrLower).language = "AR")
    ∧ ((strIn "fr" (pyLower stem) || strIn "french" (pyLower stem)
          || strIn "français" (pyLower stem)) = false →
        (strIn "es" (pyLower stem) || strIn "spanish" (pyLower stem)
          || strIn "español" (pyLower stem)) = false →
        (strIn "ar" (pyLower stem) || strIn "arabic" (pyLower stem)) = false →
        (get_fallback_metadata stem pathStrLower).language = "EN") := by
  refine ⟨fun h1 => ?_, fun h1 h2 => ?_, fun h1 h2 h3 => ?_, fun h1 h2 h3 => ?_⟩
  · simp only [get_fallback_metadata]
    simp [h1]
  · simp only [get_fallback_metadata]
    simp [h1, h2]
  · simp only [get_fallback_metadata]
    simp [h1, h2, h3]
  · simp only [get_fallback_metadata]
    simp [h1, h2, h3]

/-- C9 witness: the English word framework contains fr, so the fallback
language for stem framework is FR. -/
theorem C9_language_substring_witness :
    (get_fallback_metadata "framework" "framework.pdf").language = "FR" :=
  (C9_language_substring "framework" "framework.pdf").1 (by decide)

/-- C7: when the relative path of a document is a key of the prior catalog
and the stored checksum equals the freshly computed one, process_document
without forced reprocessing returns the prior entry itself, unchanged in
every field. -/
theorem C7_skip_returns_prior_entry (env : Env)
    (existing : List (String × CatalogEntry)) (f : FsFile) (e : CatalogEntry)
    (hget : pyDictGet existing (FsFile.relPath f) = some e)
    (hck : e.checksum_sha256 = f.checksum) :
    process_document env existing f false = .ok (some e) := by
  unfold process_document
  simp [hget, hck]

/-- C7 witness: the cataloged document a.pdf with matching fingerprint c1 is
skipped and its prior row returned as is. -/
theorem C7_skip_returns_prior_entry_witness :
    process_document env0 [("a.pdf", rowA)] fsA false = .ok (some rowA) :=
  C7_skip_returns_prior_entry env0 [("a.pdf", rowA)] fsA rowA (by rfl) (by rfl)

/-- C3: the primary metadata resolver does raise to its caller on an oracle
response whose parsed JSON holds a truthy non-string field value: on the
response containing year 2011 as a JSON number, the strip call of the
validation loop raises AttributeError, which the except clause (limited to
JSONDecodeError and ValueError) does not catch, contradicting the
never-raises claim. -/
theorem C3_attributeerror_raised :
    analyze_document_with_llm jl3 (some respBad) "doc" "doc.pdf"
      = .error PyErr.attributeError := rfl

/-- C5: with no eligible documents on disk and no prior catalog rows, an
incremental run returns an empty catalog and an empty error log. -/
theorem C5_empty_kb (env : Env) (fs : List FsFile)
    (hempty : fs.filter eligibleFile = []) :
    catalog_all_documents env fs [] true = ([], []) := by
  unfold catalog_all_documents scan_for_file_changes currentPathList
    clean_deleted_entries load_existing_catalog
  simp [hempty]

/-- C5 witness: the empty filesystem and empty catalog. -/
theorem C5_empty_kb_witness : catalog_all_documents env0 [] [] true = ([], []) :=
  C5_empty_kb env0 [] rfl

/-! ## Dictionary and loader lemmas -/

theorem pyDictGet_set_self {α : Type} (d : List (String × α)) (k : String) (v : α) :
    pyDictGet (pyDictSet d k v) k = some v := by
  induction d with
  | nil => simp [pyDictSet, pyDictGet]
  | cons p rest ih =>
    rcases p with ⟨k1, v1⟩
    by_cases h : k1 = k
    · simp [pyDictSet, pyDictGet, h]
    · simp [pyDictSet, pyDictGet, h, ih]

theorem pyDictGet_set_other {α : Type} (d : List (String × α)) (k k' : String)
    (v : α) (h : k ≠ k') : pyDictGet (pyDictSet d k v) k' = pyDictGet d k' := by
  induction d with
  | nil => simp [pyDictSet, pyDictGet, h]
  | cons p rest ih =>
    rcases p with ⟨k1, v1⟩
    simp only [pyDictSet]
    by_cases h1 : k1 = k
    · rw [if_pos (by simpa using h1)]
      subst h1
      simp only [pyDictGet]
      rw [if_neg (by simpa using h), if_neg (by simpa using h)]
    · rw [if_neg (by simpa using h1)]
      simp only [pyDictGet]
      by_cases h2 : k1 = k'
      · rw [if_pos (by simpa using h2), if_pos (by simpa using h2)]
      · rw [if_neg (by simpa using h2), if_neg (by simpa using h2)]
        exact ih

theorem pyDictSet_fresh {α : Type} (d : List (String × α)) (k : String) (v : α)
    (h : ∀ p ∈ d, p.1 ≠ k) : pyDictSet d k v = d ++ [(k, v)] := by
  induction d with
  | nil => simp [pyDictSet]
  | cons p rest ih =>
    rcases p with ⟨k1, v1⟩
    have hk1 : k1 ≠ k := h (k1, v1) (by simp)
    simp only [pyDictSet]
    rw [if_neg (by simpa using hk1)]
    simp only [List.cons_append, List.cons.injEq, true_and]
    exact ih (fun p hp => h p (by simp [hp]))

theorem pyDictGet_eq_none_of_fresh {α : Type} (d : List (String × α)) (k : String)
    (h : ∀ p ∈ d, p.1 ≠ k) : pyDictGet d k = none := by
  induction d with
  | nil => rfl
  | cons p rest ih =>
    rcases p with ⟨k1, v1⟩
    have hk1 : k1 ≠ k := h (k1, v1) (by simp)
    simp only [pyDictGet]
    rw [if_neg (by simpa using hk1)]
    exact ih (fun p hp => h p (by simp [hp]))

theorem load_existing_catalog_aux (rows : List CatalogEntry) :
    ∀ d : List (String × CatalogEntry),
    (rows.map CatalogEntry.file_path).Nodup →
    (∀ r ∈ rows, ∀ p ∈ d, p.1 ≠ r.file_path) →
    rows.foldl (fun d r => pyDictSet d r.file_path r) d
      = d ++ rows.map (fun r => (r.file_path, r)) := by
  induction rows with
  | nil => intro d _ _; simp
  | cons r rest ih =>
    intro d hnd hfresh
    rw [List.foldl_cons]
    rw [pyDictSet_fresh d r.file_path r
      (fun p hp => hfresh r (by simp) p hp)]
    have hnd' : (r.file_path :: rest.map CatalogEntry.file_path).Nodup := by
      rw [List.map_cons] at hnd
      exact hnd
    have hnd1 : (rest.map CatalogEntry.file_path).Nodup := (List.nodup_cons.mp hnd').2
    have hhead : r.file_path ∉ rest.map CatalogEntry.file_path :=
      (List.nodup_cons.mp hnd').1
    rw [ih (d ++ [(r.file_path, r)]) hnd1 ?_]
    · simp
    · intro r' hr' p hp
      rcases List.mem_append.mp hp with hd | hlast
      · exact hfresh r' (by simp [hr']) p hd
      · have hp1 : p = (r.file_path, r) := by simpa using hlast
        subst hp1
        intro hcontra
        exact hhead (by
          have : r'.file_path ∈ rest.map CatalogEntry.file_path :=
            List.mem_map.mpr ⟨r', hr', rfl⟩
          rwa [← hcontra] at this)

theorem load_existing_catalog_eq (rows : List CatalogEntry)
    (hnd : (rows.map CatalogEntry.file_path).Nodup) :
    load_existing_catalog rows = rows.map (fun r => (r.file_path, r)) := by
  unfold load_existing_catalog
  simpa using load_existing_catalog_aux rows [] hnd (by simp)

/-! ## Per-document pipeline lemmas -/

theorem processText_file_path (env : Env) (f : FsFile) (text : String)
    (e : CatalogEntry) (h : processText env f text = .ok (some e)) :
    e.file_path = FsFile.relPath f := by
  unfold processText at h
  split at h
  · exact absurd h (by simp)
  · split at h
    · exact absurd h (by simp)
    · simp only [Except.ok.injEq, Option.some.injEq] at h
      subst h
      rfl

theorem process_document_body_file_path (env : Env) (f : FsFile) (e : CatalogEntry)
    (h : process_document_body env f = .ok (some e)) :
    e.file_path = FsFile.relPath f := by
  unfold process_document_body at h
  split at h
  · exact processText_file_path env f f.text e h
  · split at h
    · exact processText_file_path env f f.text e h
    · exact absurd h (by simp)

theorem process_document_file_path_of_unseen (env : Env)
    (existing : List (String × CatalogEntry)) (f : FsFile) (force : Bool)
    (e : CatalogEntry)
    (hnone : force = true ∨ pyDictGet existing (FsFile.relPath f) = none)
    (h : process_document env existing f force = .ok (some e)) :
    e.file_path = FsFile.relPath f := by
  unfold process_document at h
  rcases hnone with hforce | hget
  · subst hforce
    simp only [if_true] at h
    exact process_document_body_file_path env f e h
  · cases force
    · rw [if_neg (by simp)] at h
      rw [hget] at h
      exact process_document_body_file_path env f e h
    · simp only [if_true] at h
      exact process_document_body_file_path env f e h

theorem processFiles_mem (env : Env) (existing : List (String × CatalogEntry))
    (force : Bool) (files : List FsFile) (e : CatalogEntry)
    (he : e ∈ (processFiles env existing force files).1) :
    ∃ f ∈ files, process_document env existing f force = .ok (some e) := by
  induction files with
  | nil => simp [processFiles] at he
  | cons f rest ih =>
    simp only [processFiles] at he
    rcases hpd : process_document env existing f force with err | oe
    · rw [hpd] at he
      rcases ih he with ⟨g, hg, hpg⟩
      exact ⟨g, by simp [hg], hpg⟩
    · rw [hpd] at he
      rcases oe with _ | e2
      · rcases ih he with ⟨g, hg, hpg⟩
        exact ⟨g, by simp [hg], hpg⟩
      · rcases List.mem_cons.mp he with h1 | h1
        · subst h1
          exact ⟨f, by simp, hpd⟩
        · rcases ih h1 with ⟨g, hg, hpg⟩
          exact ⟨g, by simp [hg], hpg⟩

/-- C1: incremental synchronization is idempotent: for every catalog state
(rows keyed by their distinct file paths) and filesystem on which the change
scan reports no new and no deleted files, the incremental run returns the
rows of the loaded catalog unchanged with an empty error log, so saving the
result writes the same table that was loaded. -/
theorem C1_incremental_idempotent (env : Env) (fs : List FsFile)
    (rows : List CatalogEntry)
    (hnd : (rows.map CatalogEntry.file_path).Nodup)
    (hscan : scan_for_file_changes fs
      ((load_existing_catalog rows).map (fun kv => kv.1)) = ([], [])) :
    catalog_all_documents env fs rows true = (rows, [])
    ∧ save_catalog (catalog_all_documents env fs rows true).1 = save_catalog rows := by
  have hmain : catalog_all_documents env fs rows true = (rows, []) := by
    simp only [catalog_all_documents]
    rw [hscan]
    rw [load_existing_catalog_eq rows hnd]
    simp only [clean_deleted_entries, List.contains_nil, Bool.not_false,
      List.filter_true, List.map_map, Prod.mk.injEq, and_true]
    rw [show ((fun (kv : String × CatalogEntry) => kv.2)
        ∘ fun r => (r.file_path, r)) = id from rfl, List.map_id]
    simp
  exact ⟨hmain, by rw [hmain]⟩

/-- C1 witness: a one-row catalog matching the one document on disk. -/
theorem C1_incremental_idempotent_witness :
    catalog_all_documents env0 [fsA] [rowA] true = ([rowA], []) :=
  (C1_incremental_idempotent env0 [fsA] [rowA] (by decide) (by decide)).1

theorem process_document_body_empty_text (env : Env) (f : FsFile)
    (he : eligibleFile f = true) (htext : f.text = "") :
    process_document_body env f = .ok none := by
  have h1 : (FsFile.suffix f == ".pdf" || FsFile.suffix f == ".docx") = true := by
    unfold eligibleFile at he
    exact ((Bool.and_eq_true _ _).mp he).1
  unfold process_document_body
  rw [htext]
  rcases (Bool.or_eq_true _ _).mp h1 with hp | hd
  · have hs : FsFile.suffix f = ".pdf" := by simpa using hp
    rw [hs, if_pos (show (pyLower ".pdf" == ".pdf") = true by decide)]
    unfold processText
    rw [if_pos (show (("" : String) == "") = true by decide)]
  · have hs : FsFile.suffix f = ".docx" := by simpa using hd
    rw [hs, if_neg (show ¬(pyLower ".docx" == ".pdf") = true by decide),
      if_pos (show (pyLower ".docx" == ".docx") = true by decide)]
    unfold processText
    rw [if_pos (show (("" : String) == "") = true by decide)]

/-- C10: in full-scan mode a document whose text extraction returns the empty
string is absent from the output catalog even though it is on disk and had a
prior entry: process_document returns no entry for it and no output row
carries its path. -/
theorem C10_fullscan_drops_unreadable (env : Env) (fs : List FsFile)
    (rows : List CatalogEntry) (f : FsFile)
    (hnd : (fs.map FsFile.relPath).Nodup) (hf : f ∈ fs)
    (he : eligibleFile f = true) (htext : f.text = "")
    (hprior : FsFile.relPath f ∈ rows.map CatalogEntry.file_path) :
    process_document env (load_existing_catalog rows) f true = .ok none
    ∧ ∀ e ∈ (catalog_all_documents env fs rows false).1,
        e.file_path ≠ FsFile.relPath f := by
  have hbody := process_document_body_empty_text env f he htext
  have hskip : process_document env (load_existing_catalog rows) f true
      = process_document_body env f := rfl
  refine ⟨hskip.trans hbody, ?_⟩
  intro e hmem heq
  have hout : (catalog_all_documents env fs rows false).1
      = (processFiles env (load_existing_catalog rows) true (fs.filter eligibleFile)).1 := rfl
  rw [hout] at hmem
  rcases processFiles_mem env _ true _ e hmem with ⟨g, hg, hpg⟩
  have hgfs : g ∈ fs := (List.mem_filter.mp hg).1
  have hpath : e.file_path = FsFile.relPath g :=
    process_document_file_path_of_unseen env _ g true e (Or.inl rfl) hpg
  have hgf : g = f :=
    List.inj_on_of_nodup_map hnd hgfs hf (by rw [← hpath, heq])
  subst hgf
  rw [hskip.trans hbody] at hpg
  exact absurd hpg (by simp)

/-- C2 counterexample: the document a.pdf has modified bytes (fingerprint c2
against the cataloged c1) at its unchanged path, yet the next incremental run
returns the prior entry byte-identical, stale checksum included: the entry is
not regenerated, contradicting the claim that a byte modification causes
regeneration on the next incremental run. -/
theorem C2_counterexample :
    fsAchanged.checksum ≠ rowA.checksum_sha256
    ∧ FsFile.relPath fsAchanged = rowA.file_path
    ∧ eligibleFile fsAchanged = true
    ∧ catalog_all_documents env0 [fsAchanged] [rowA] true = ([rowA], []) :=
  ⟨by decide, by decide, by decide, by decide⟩

theorem incremental_out (env : Env) (fs : List FsFile) (rows : List CatalogEntry) :
    (catalog_all_documents env fs rows true).1
      = clean_deleted_entries (load_existing_catalog rows)
          (scan_for_file_changes fs
            ((load_existing_catalog rows).map (fun kv => kv.1))).2
        ++ (processFiles env (load_existing_catalog rows) false
            (scan_for_file_changes fs
              ((load_existing_catalog rows).map (fun kv => kv.1))).1).1 := by
  simp only [catalog_all_documents]
  by_cases hcond : ((scan_for_file_changes fs
        ((load_existing_catalog rows).map (fun kv => kv.1))).1.isEmpty
      && (scan_for_file_changes fs
        ((load_existing_catalog rows).map (fun kv => kv.1))).2.isEmpty) = true
  · rw [if_pos hcond]
    have h1 : (scan_for_file_changes fs
        ((load_existing_catalog rows).map (fun kv => kv.1))).1 = [] :=
      List.isEmpty_iff.mp ((Bool.and_eq_true _ _).mp hcond).1
    rw [h1]
    simp [processFiles]
  · rw [if_neg hcond]
    simp

/-- C2 amended: modifying a document's bytes without changing its path does
not regenerate its entry on the next incremental run: incremental mode only
processes paths absent from the catalog, so every prior entry whose path is
still on disk — the modified document's stale entry included — is carried
into the output byte-identical, and no other output row carries its path.
The checksum comparison of process_document would regenerate the entry, but
incremental mode never invokes process_document on a cataloged path. -/
theorem C2_incremental_ignores_byte_changes (env : Env) (fs : List FsFile)
    (rows : List CatalogEntry)
    (hnd : (rows.map CatalogEntry.file_path).Nodup)
    (r : CatalogEntry) (hr : r ∈ rows) (f : FsFile) (hf : f ∈ fs)
    (he : eligibleFile f = true) (hp : FsFile.relPath f = r.file_path)
    (hck : f.checksum ≠ r.checksum_sha256) :
    ∀ r' ∈ rows, r'.file_path ∈ currentPathList fs →
      r' ∈ (catalog_all_documents env fs rows true).1
      ∧ ∀ e ∈ (catalog_all_documents env fs rows true).1,
          e.file_path = r'.file_path → e = r' := by
  intro r' hr' hcur
  have hload := load_existing_catalog_eq rows hnd
  have hkeys : (rows.map (fun r => (r.file_path, r))).map
      (fun kv => (kv : String × CatalogEntry).1) = rows.map CatalogEntry.file_path := by
    rw [List.map_map]
    rfl
  have hscan1 : (scan_for_file_changes fs (rows.map CatalogEntry.file_path)).1
      = (fs.filter eligibleFile).filter
        (fun g => !(rows.map CatalogEntry.file_path).contains (FsFile.relPath g)) := rfl
  have hscan2 : (scan_for_file_changes fs (rows.map CatalogEntry.file_path)).2
      = (rows.map CatalogEntry.file_path).filter
        (fun p => !(currentPathList fs).contains p) := rfl
  have hccur : (currentPathList fs).contains r'.file_path = true := by simp [hcur]
  have hdelc : ((rows.map CatalogEntry.file_path).filter
      (fun p => !(currentPathList fs).contains p)).contains r'.file_path = false := by
    rcases hfc : ((rows.map CatalogEntry.file_path).filter
        (fun p => !(currentPathList fs).contains p)).contains r'.file_path with _ | _
    · rfl
    · exfalso
      have hmem : r'.file_path ∈ (rows.map CatalogEntry.file_path).filter
          (fun p => !(currentPathList fs).contains p) := by simpa using hfc
      have := (List.mem_filter.mp hmem).2
      rw [hccur] at this
      simp at this
  have hA : r' ∈ clean_deleted_entries (rows.map (fun r => (r.file_path, r)))
      ((rows.map CatalogEntry.file_path).filter
        (fun p => !(currentPathList fs).contains p)) := by
    unfold clean_deleted_entries
    refine List.mem_map.mpr ⟨(r'.file_path, r'), ?_, rfl⟩
    refine List.mem_filter.mpr ⟨List.mem_map.mpr ⟨r', hr', rfl⟩, ?_⟩
    show (!((rows.map CatalogEntry.file_path).filter
        (fun p => !(currentPathList fs).contains p)).contains r'.file_path) = true
    rw [hdelc]
    rfl
  have hB : ∀ e, e ∈ clean_deleted_entries (rows.map (fun r => (r.file_path, r)))
      ((rows.map CatalogEntry.file_path).filter
        (fun p => !(currentPathList fs).contains p)) →
      e.file_path = r'.file_path → e = r' := by
    intro e hmem heq
    unfold clean_deleted_entries at hmem
    rcases List.mem_map.mp hmem with ⟨kv, hkv, hkve⟩
    rcases List.mem_map.mp (List.mem_filter.mp hkv).1 with ⟨r2, hr2, hpair⟩
    have he2 : e = r2 := by rw [← hkve, ← hpair]
    subst he2
    exact List.inj_on_of_nodup_map hnd hr2 hr' heq
  have hC : ∀ e, e ∈ (processFiles env (rows.map (fun r => (r.file_path, r))) false
      ((fs.filter eligibleFile).filter
        (fun g => !(rows.map CatalogEntry.file_path).contains (FsFile.relPath g)))).1 →
      e.file_path ≠ r'.file_path := by
    intro e hmem heq
    rcases processFiles_mem env _ false _ e hmem with ⟨g, hg, hpg⟩
    have hnotin : (rows.map CatalogEntry.file_path).contains (FsFile.relPath g) = false := by
      have := (List.mem_filter.mp hg).2
      simpa using this
    have hfresh : ∀ p ∈ rows.map (fun r => (r.file_path, r)),
        (p : String × CatalogEntry).1 ≠ FsFile.relPath g := by
      intro p hpm hcontra
      rcases List.mem_map.mp hpm with ⟨r2, hr2, hpr⟩
      have hgk : FsFile.relPath g ∈ rows.map CatalogEntry.file_path := by
        refine List.mem_map.mpr ⟨r2, hr2, ?_⟩
        rw [← hcontra, ← hpr]
      simp [hgk] at hnotin
    have hnone : pyDictGet (rows.map (fun r => (r.file_path, r)))
        (FsFile.relPath g) = none := pyDictGet_eq_none_of_fresh _ _ hfresh
    have hpathg : e.file_path = FsFile.relPath g :=
      process_document_file_path_of_unseen env _ g false e (Or.inr hnone) hpg
    rw [heq] at hpathg
    have hrmem : r'.file_path ∈ rows.map CatalogEntry.file_path :=
      List.mem_map.mpr ⟨r', hr', rfl⟩
    rw [hpathg] at hrmem
    simp [hrmem] at hnotin
  refine ⟨?_, ?_⟩
  · rw [incremental_out env fs rows, hload, hkeys, hscan2]
    exact List.mem_append_left _ hA
  · intro e hmem heq
    rw [incremental_out env fs rows, hload, hkeys, hscan1, hscan2] at hmem
    rcases List.mem_append.mp hmem with h1 | h1
    · exact hB e h1 heq
    · exact absurd heq (hC e h1)

/-- C2 witness: every prior row whose path is still on disk, the modified
document's row included, survives the incremental run unchanged and uniquely. -/
theorem C2_incremental_ignores_byte_changes_witness :
    rowA ∈ (catalog_all_documents env0 [fsAchanged] [rowA] true).1
    ∧ ∀ e ∈ (catalog_all_documents env0 [fsAchanged] [rowA] true).1,
        e.file_path = rowA.file_path → e = rowA :=
  C2_incremental_ignores_byte_changes env0 [fsAchanged] [rowA] (by decide)
    rowA (by decide) fsAchanged (by decide) (by decide) (by decide) (by decide)
    rowA (by decide) (by decide)

/-- C10 witness: the cataloged document a.pdf still on disk but now
unreadable is dropped by a full scan. -/
theorem C10_fullscan_drops_unreadable_witness :
    process_document env0 (load_existing_catalog [rowA]) fsEmptyText true = .ok none
    ∧ ∀ e ∈ (catalog_all_documents env0 [fsEmptyText] [rowA] false).1,
        e.file_path ≠ FsFile.relPath fsEmptyText :=
  C10_fullscan_drops_unreadable env0 [fsEmptyText] [rowA] fsEmptyText
    (by decide) (by decide) (by decide) (by decide) (by decide)

/-! ## Field non-emptiness lemmas -/

theorem field_default_ne_empty (f : String) : field_default f ≠ "" := by
  unfold field_default
  split_ifs <;> decide

theorem string_take50_of_le (s : String) (h : s.length ≤ 50) : s.take 50 = s := by
  rw [String.take_eq, List.take_of_length_le h]

theorem string_append_dots_ne (a : String) : a ++ "..." ≠ "" := by
  intro h
  have hd : (a ++ "...").data = ([] : List Char) := by rw [h]
  simp at hd

theorem string_ne_empty_of_length4 (s : String) (h : s.length = 4) : s ≠ "" := by
  intro he
  subst he
  exact absurd h (by decide)

theorem yearSearch_length (l : List Char) :
    ∀ prev s, yearSearch prev l = some s → s.length = 4 := by
  induction l with
  | nil =>
    intro prev s h
    simp [yearSearch] at h
  | cons c1 rest1 ih =>
    intro prev s h
    rcases rest1 with _ | ⟨c2, rest2⟩
    · simp [yearSearch] at h
    · rcases rest2 with _ | ⟨c3, rest3⟩
      · exact ih (some c1) s h
      · rcases rest3 with _ | ⟨c4, rest4⟩
        · exact ih (some c1) s h
        · simp only [yearSearch] at h
          split at h
          · injection h with h1
            subst h1
            rfl
          · exact ih (some c1) s h

theorem validateOne_ok_cases (m : List (String × PyJson)) (f : String)
    (m1 : List (String × PyJson)) (h : validateOne m f = .ok m1) :
    m1 = m ∨ m1 = pyDictSet m f (.str (field_default f)) := by
  unfold validateOne at h
  split at h
  · right
    simp only [Except.ok.injEq] at h
    exact h.symm
  · split at h
    · split at h
      · split at h
        · right
          simp only [Except.ok.injEq] at h
          exact h.symm
        · left
          simp only [Except.ok.injEq] at h
          exact h.symm
      · exact absurd h (by simp)
    · right
      simp only [Except.ok.injEq] at h
      exact h.symm

theorem validateOne_good (m : List (String × PyJson)) (f : String)
    (m1 : List (String × PyJson)) (h : validateOne m f = .ok m1) :
    ∃ s, pyDictGet m1 f = some (PyJson.str s) ∧ s ≠ "" := by
  unfold validateOne at h
  split at h
  · simp only [Except.ok.injEq] at h
    subst h
    exact ⟨field_default f, pyDictGet_set_self m f _, field_default_ne_empty f⟩
  · rename_i v hv
    split at h
    · split at h
      · rename_i s htruthy
        split at h
        · simp only [Except.ok.injEq] at h
          subst h
          exact ⟨field_default f, pyDictGet_set_self m f _, field_default_ne_empty f⟩
        · rename_i hblank
          simp only [Except.ok.injEq] at h
          subst h
          refine ⟨s, hv, ?_⟩
          intro hse
          subst hse
          exact hblank (by decide)
      · exact absurd h (by simp)
    · simp only [Except.ok.injEq] at h
      subst h
      exact ⟨field_default f, pyDictGet_set_self m f _, field_default_ne_empty f⟩

theorem validateFields_get (fs : List String) :
    ∀ m m2, validateFields m fs = .ok m2 →
    ∀ k, pyDictGet m2 k = pyDictGet m k
      ∨ ∃ s, pyDictGet m2 k = some (PyJson.str s) ∧ s ≠ "" := by
  induction fs with
  | nil =>
    intro m m2 h k
    left
    unfold validateFields at h
    simp only [Except.ok.injEq] at h
    rw [h]
  | cons f rest ih =>
    intro m m2 h k
    unfold validateFields at h
    split at h
    · exact absurd h (by simp)
    · rename_i m1 hone
      rcases ih m1 m2 h k with heq | hgood
      · rcases validateOne_ok_cases m f m1 hone with h1 | hset
        · subst h1
          left
          exact heq
        · by_cases hkf : f = k
          · subst hkf
            right
            rw [heq, hset, pyDictGet_set_self]
            exact ⟨_, rfl, field_default_ne_empty f⟩
          · left
            rw [heq, hset, pyDictGet_set_other _ _ _ _ hkf]
      · right
        exact hgood

theorem validateFields_all (fs : List String) :
    ∀ m m2, validateFields m fs = .ok m2 →
    ∀ f ∈ fs, ∃ s, pyDictGet m2 f = some (PyJson.str s) ∧ s ≠ "" := by
  induction fs with
  | nil =>
    intro m m2 _ f hf
    simp at hf
  | cons g rest ih =>
    intro m m2 h f hf
    unfold validateFields at h
    split at h
    · exact absurd h (by simp)
    · rename_i m1 hone
      rcases List.mem_cons.mp hf with h1 | hfr
      · subst h1
        rcases validateOne_good m f m1 hone with ⟨s, hs, hne⟩
        rcases validateFields_get rest m1 m2 h f with heq | hgood
        · exact ⟨s, by rw [heq, hs], hne⟩
        · exact hgood
      · exact ih m1 m2 h f hfr

theorem finishMetadata_fields (m : List (String × PyJson))
    (hall : ∀ f ∈ required_fields,
      ∃ s, pyDictGet m f = some (PyJson.str s) ∧ s ≠ "") :
    (finishMetadata m).title ≠ "" ∧ (finishMetadata m).short_title ≠ ""
    ∧ (finishMetadata m).publisher ≠ "" ∧ (finishMetadata m).year ≠ ""
    ∧ (finishMetadata m).language ≠ "" ∧ (finishMetadata m).country_scope ≠ ""
    ∧ (finishMetadata m).summary ≠ "" ∧ (finishMetadata m).indicators_covered ≠ ""
    ∧ (finishMetadata m).evidence_level ≠ "" := by
  obtain ⟨s1, h1, n1⟩ := hall "title" (by simp [required_fields])
  obtain ⟨s2, h2, n2⟩ := hall "short_title" (by simp [required_fields])
  obtain ⟨s3, h3, n3⟩ := hall "publisher" (by simp [required_fields])
  obtain ⟨s4, h4, n4⟩ := hall "year" (by simp [required_fields])
  obtain ⟨s5, h5, n5⟩ := hall "language" (by simp [required_fields])
  obtain ⟨s6, h6, n6⟩ := hall "country_scope" (by simp [required_fields])
  obtain ⟨s7, h7, n7⟩ := hall "summary" (by simp [required_fields])
  obtain ⟨s8, h8, n8⟩ := hall "indicators_covered" (by simp [required_fields])
  obtain ⟨s9, h9, n9⟩ := hall "evidence_level" (by simp [required_fields])
  refine ⟨?_, ?_, ?_, ?_, ?_, ?_, ?_, ?_, ?_⟩
  · rw [show (finishMetadata m).title
        = pyStrOf ((pyDictGet m "title").getD PyJson.null) from rfl, h1]
    simpa [pyStrOf] using n1
  · rw [show (finishMetadata m).short_title
        = (if (pyStrOf ((pyDictGet m "short_title").getD PyJson.null)).length > 50
           then (pyStrOf ((pyDictGet m "short_title").getD PyJson.null)).take 47 ++ "..."
           else pyStrOf ((pyDictGet m "short_title").getD PyJson.null)) from rfl, h2]
    simp only [Option.getD_some, pyStrOf]
    split_ifs
    · exact string_append_dots_ne _
    · exact n2
  · rw [show (finishMetadata m).publisher
        = pyStrOf ((pyDictGet m "publisher").getD PyJson.null) from rfl, h3]
    simpa [pyStrOf] using n3
  · rw [show (finishMetadata m).year
        = pyStrOf ((pyDictGet m "year").getD PyJson.null) from rfl, h4]
    simpa [pyStrOf] using n4
  · rw [show (finishMetadata m).language
        = pyStrOf ((pyDictGet m "language").getD PyJson.null) from rfl, h5]
    simpa [pyStrOf] using n5
  · rw [show (finishMetadata m).country_scope
        = pyStrOf ((pyDictGet m "country_scope").getD PyJson.null) from rfl, h6]
    simpa [pyStrOf] using n6
  · rw [show (finishMetadata m).summary
        = pyStrOf ((pyDictGet m "summary").getD PyJson.null) from rfl, h7]
    simpa [pyStrOf] using n7
  · rw [show (finishMetadata m).indicators_covered
        = pyStrOf ((pyDictGet m "indicators_covered").getD PyJson.null) from rfl, h8]
    simpa [pyStrOf] using n8
  · rw [show (finishMetadata m).evidence_level
        = pyStrOf ((pyDictGet m "evidence_level").getD PyJson.null) from rfl, h9]
    simpa [pyStrOf] using n9

theorem get_fallback_metadata_fields (stem pathStrLower : String) :
    (get_fallback_metadata stem pathStrLower).publisher ≠ ""
    ∧ (get_fallback_metadata stem pathStrLower).year ≠ ""
    ∧ (get_fallback_metadata stem pathStrLower).language ≠ ""
    ∧ (get_fallback_metadata stem pathStrLower).country_scope ≠ ""
    ∧ (get_fallback_metadata stem pathStrLower).summary ≠ ""
    ∧ (get_fallback_metadata stem pathStrLower).indicators_covered ≠ ""
    ∧ (get_fallback_metadata stem pathStrLower).evidence_level ≠ ""
    ∧ (fallbackTitle stem ≠ "" →
        (get_fallback_metadata stem pathStrLower).title ≠ ""
        ∧ (get_fallback_metadata stem pathStrLower).short_title ≠ "") := by
  refine ⟨?_, ?_, ?_,
    by show ("Global" : String) ≠ ""; decide,
    by show ("Document requires manual review for detailed cataloging" : String) ≠ ""; decide,
    by show ("To be determined through manual review" : String) ≠ ""; decide,
    by show ("unknown" : String) ≠ ""; decide, ?_⟩
  · show ((publishers.find? (fun kv =>
        strIn kv.1 (pyLower stem) || strIn kv.1 pathStrLower)).map
      (fun kv => kv.2)).getD "Unknown" ≠ ""
    rcases hfind : publishers.find? (fun kv =>
        strIn kv.1 (pyLower stem) || strIn kv.1 pathStrLower) with _ | kv
    · rw [hfind]
      decide
    · have hmem := List.mem_of_find?_eq_some hfind
      rw [hfind]
      show kv.2 ≠ ""
      fin_cases hmem <;> decide
  · show (yearSearch none stem.toList).getD "Unknown" ≠ ""
    rcases hy : yearSearch none stem.toList with _ | s
    · show ("Unknown" : String) ≠ ""
      decide
    · show s ≠ ""
      exact string_ne_empty_of_length4 s (yearSearch_length stem.toList none s hy)
  · simp only [get_fallback_metadata]
    split_ifs <;> decide
  · intro ht
    refine ⟨ht, ?_⟩
    show (if (fallbackTitle stem).length ≤ 50 then (fallbackTitle stem).take 50
        else (fallbackTitle stem).take 47 ++ "...") ≠ ""
    split_ifs with hle
    · rw [string_take50_of_le _ hle]
      exact ht
    · exact string_append_dots_ne _

theorem parseStage_fields (jl : String → Except String (List (String × PyJson)))
    (json_str stem pathStrLower : String) (md : Metadata)
    (h : parseStage jl json_str stem pathStrLower = .ok md) :
    md.publisher ≠ "" ∧ md.year ≠ "" ∧ md.language ≠ "" ∧ md.country_scope ≠ ""
    ∧ md.summary ≠ "" ∧ md.indicators_covered ≠ "" ∧ md.evidence_level ≠ ""
    ∧ (fallbackTitle stem ≠ "" → md.title ≠ "" ∧ md.short_title ≠ "") := by
  have hfb := get_fallback_metadata_fields stem pathStrLower
  unfold parseStage at h
  split at h
  · simp only [Except.ok.injEq] at h
    subst h
    exact hfb
  · split at h
    · exact absurd h (by simp)
    · rename_i m hvf
      simp only [Except.ok.injEq] at h
      subst h
      obtain ⟨t, st, pb, yr, lg, cs, sm, ic, ev⟩ :=
        finishMetadata_fields m (validateFields_all required_fields _ m hvf)
      exact ⟨pb, yr, lg, cs, sm, ic, ev, fun _ => ⟨t, st⟩⟩

theorem analyze_document_with_llm_fields
    (jl : String → Except String (List (String × PyJson)))
    (resp? : Option String) (stem pathStrLower : String) (md : Metadata)
    (h : analyze_document_with_llm jl resp? stem pathStrLower = .ok md) :
    md.publisher ≠ "" ∧ md.year ≠ "" ∧ md.language ≠ "" ∧ md.country_scope ≠ ""
    ∧ md.summary ≠ "" ∧ md.indicators_covered ≠ "" ∧ md.evidence_level ≠ ""
    ∧ (fallbackTitle stem ≠ "" → md.title ≠ "" ∧ md.short_title ≠ "") := by
  have hfb := get_fallback_metadata_fields stem pathStrLower
  unfold analyze_document_with_llm at h
  rcases resp? with _ | resp
  · simp only [Except.ok.injEq] at h
    subst h
    exact hfb
  · repeat' split at h
    all_goals try (simp only [Except.ok.injEq] at h; subst h; exact hfb)
    exact parseStage_fields jl _ stem pathStrLower md h

theorem processText_fields (env : Env) (f : FsFile) (text : String)
    (e : CatalogEntry) (h : processText env f text = .ok (some e)) :
    e.publisher ≠ "" ∧ e.year ≠ "" ∧ e.language ≠ "" ∧ e.country_scope ≠ ""
    ∧ e.notes ≠ "" ∧ e.indicators_covered ≠ "" ∧ e.evidence_level ≠ ""
    ∧ (fallbackTitle (FsFile.stem f) ≠ "" → e.title ≠ "" ∧ e.short_title ≠ "") := by
  unfold processText at h
  split at h
  · exact absurd h (by simp)
  · split at h
    · exact absurd h (by simp)
    · rename_i md ha
      simp only [Except.ok.injEq, Option.some.injEq] at h
      subst h
      exact analyze_document_with_llm_fields env.json_loads
        (env.oracle (text.take 2000)) (FsFile.stem f)
        (pyLower (FsFile.pathStr f)) md ha

set_option maxRecDepth 4000

/-- C4 counterexample: on a filename whose stem is a bare year, the fallback
path produces a catalog entry whose title and short_title are empty, against
the claim that all nine descriptive fields are non-empty for every input
filename and path. -/
theorem C4_counterexample :
    process_document_body env0 file2023 = .ok (some entry2023)
    ∧ entry2023.title = "" ∧ entry2023.short_title = "" :=
  ⟨rfl, rfl, rfl⟩

/-- C4 amended: every produced CatalogEntry has the seven descriptive fields
publisher, year, language, country_scope, summary (the notes column),
indicators_covered and evidence_level non-empty on both resolution paths;
title and short_title are likewise non-empty except when the metadata comes
from the fallback path on a stem whose title cleaning (separators to spaces,
year tokens removed, strip, titlecase) leaves the empty string, in which case
both are empty — so they are non-empty whenever the cleaned stem is. -/
theorem C4_descriptive_fields_amended (env : Env) (f : FsFile) (e : CatalogEntry)
    (h : process_document_body env f = .ok (some e)) :
    e.publisher ≠ "" ∧ e.year ≠ "" ∧ e.language ≠ "" ∧ e.country_scope ≠ ""
    ∧ e.notes ≠ "" ∧ e.indicators_covered ≠ "" ∧ e.evidence_level ≠ ""
    ∧ (fallbackTitle (FsFile.stem f) ≠ "" → e.title ≠ "" ∧ e.short_title ≠ "") := by
  unfold process_document_body at h
  split at h
  · exact processText_fields env f f.text e h
  · split at h
    · exact processText_fields env f f.text e h
    · exact absurd h (by simp)

/-- C4 witness: the entry built for the readable document a.pdf through the
LLM path of envG has every descriptive field non-empty. -/
theorem C4_descriptive_fields_amended_witness :
    entryGood.publisher ≠ "" ∧ entryGood.year ≠ "" ∧ entryGood.language ≠ ""
    ∧ entryGood.country_scope ≠ "" ∧ entryGood.notes ≠ ""
    ∧ entryGood.indicators_covered ≠ "" ∧ entryGood.evidence_level ≠ ""
    ∧ (fallbackTitle (FsFile.stem fsA) ≠ "" →
        entryGood.title ≠ "" ∧ entryGood.short_title ≠ "") :=
  C4_descriptive_fields_amended envG fsA entryGood rfl

end Cataloger
